import Mathlib

/-!
Verification of the contrast-grid-editor core against its specification.

The development shallowly embeds the TypeScript source of the
`contrast-grid-editor` repository.  Strings are modelled as `List Char`,
JavaScript numbers as exact rationals (a pair of integers, `Frac`) where the
computation is algebraic, and as real numbers where the WCAG luminance
formula uses the non-algebraic exponent 2.4.  JavaScript arrays that can
acquire out-of-bounds "holes" are modelled as lists of `Option` cells, with
`none` standing for an `undefined` slot.

The repository contains two near-duplicate historical variants of the
entry-parsing/label-formatting pair (see the spec's Design Notes); the
exact-preservation variant of `src/unnamed/part_001` (the one the spec's
EntryParser section describes) is embedded here as `parseColorInput` and
`formatColorValue`.  The color library the source delegates to (chroma-js)
is not part of the repository; its conversion, parsing, and contrast
functions are modelled from the spec where needed, and each such definition
is marked in its doc comment.
-/

/-- Characters of a JavaScript string; a string is a list of characters. -/
abbrev Str := List Char

/-- One row/column entry: a color string plus an optional label.  Embeds the
`ColorEntry` interface of `src/src/App.tsx` lines 4-7. -/
structure ColorEntry where
  color : Str
  label : Option Str
deriving DecidableEq, Repr

/-- First index at which the predicate holds, as JavaScript's `indexOf`
family reports it (`none` playing the role of `-1`). -/
def firstIdxOf (p : Char → Bool) : Str → Option Nat
  | [] => none
  | c :: t => if p c then some 0 else (firstIdxOf p t).map (· + 1)

/-- JavaScript `input.indexOf(c)` for a single character, with `none` for
`-1`. -/
def jsIndexOf (s : Str) (c : Char) : Option Nat :=
  firstIdxOf (fun x => x = c) s

/-- Test for `/^[0-9A-Fa-f]/`-class characters. -/
def isHexDigitChar (c : Char) : Bool :=
  ('0' ≤ c && c ≤ '9') || ('a' ≤ c && c ≤ 'f') || ('A' ≤ c && c ≤ 'F')

/-- The regular expression test `/^[0-9A-Fa-f]{6}$/.test(s)`. -/
def isBareHex6 (s : Str) : Bool :=
  s.length = 6 && s.all isHexDigitChar

/-- Combination of two JavaScript `indexOf` results, as the if-chain of
`parseColorInput` in `src/unnamed/part_001` lines 44-51 combines them: the
smaller index when both delimiters occur, either one alone, or `none`
(JavaScript `-1`) when neither occurs. -/
def jsMinIndex : Option Nat → Option Nat → Option Nat
  | some i, some j => some (min i j)
  | some i, none => some i
  | none, some j => some j
  | none, none => none

/-- Split point of a line: the earlier of the first comma and the first
space (`src/unnamed/part_001` lines 40-51). -/
def colorEndIndex (s : Str) : Option Nat :=
  jsMinIndex (jsIndexOf s ',') (jsIndexOf s ' ')

/-- The bare-6-hex-digit auto-hash normalization applied to the extracted
color token (`src/unnamed/part_001` line 58). -/
def addHashIfBareHex (s : Str) : Str :=
  if isBareHex6 s then '#' :: s else s

/-- Embeds `parseColorInput` of `src/unnamed/part_001` lines 38-64, the
exact-preservation variant the spec's EntryParser section describes.
(`src/src/App.tsx` lines 38-47 holds an older comma-only variant of the same
function; see the spec's Design Notes on the two historical variants.) -/
def parseColorInput (input : Str) : ColorEntry :=
  match colorEndIndex input with
  | none => ⟨input, none⟩
  | some i =>
    let colorPart := input.take i
    let labelPart := input.drop i
    ⟨addHashIfBareHex colorPart, if labelPart.isEmpty then none else some labelPart⟩

/-- Embeds `formatColorValue` of `src/unnamed/part_001` lines 437-441: an
absent (or empty, JavaScript falsy) label yields the color alone, otherwise
the label is concatenated verbatim after the color. -/
def formatColorValue (entry : ColorEntry) : Str :=
  match entry.label with
  | none => entry.color
  | some lab => if lab.isEmpty then entry.color else entry.color ++ lab

/-- A comma or a space: the two delimiters `parseColorInput` searches for. -/
def isDelimiter (c : Char) : Bool :=
  c = ',' || c = ' '

lemma firstIdxOf_some_lt_length {p : Char → Bool} :
    ∀ {s : Str} {i : Nat}, firstIdxOf p s = some i → i < s.length := by
  intro s
  induction s with
  | nil => intro i h; simp [firstIdxOf] at h
  | cons c t ih =>
    intro i h
    simp only [List.length_cons]
    by_cases hc : p c
    · simp [firstIdxOf, hc] at h
      omega
    · simp [firstIdxOf, hc] at h
      obtain ⟨j, hj, rfl⟩ := h
      have := ih hj
      omega

lemma jsMinIndex_firstIdxOf (p q : Char → Bool) (s : Str) :
    jsMinIndex (firstIdxOf p s) (firstIdxOf q s) =
      firstIdxOf (fun c => p c || q c) s := by
  induction s with
  | nil => rfl
  | cons c t ih =>
    simp only [firstIdxOf]
    rw [← ih]
    by_cases hpc : p c = true <;> by_cases hqc : q c = true <;>
      simp only [hpc, hqc, Bool.not_eq_true] at * <;>
        simp only [hpc, hqc, Bool.true_or, Bool.or_true, Bool.false_or, if_true, if_false] <;>
          cases ep : firstIdxOf p t <;> cases eq2 : firstIdxOf q t <;>
            simp [jsMinIndex, Nat.succ_min_succ]

lemma colorEndIndex_eq_firstIdxOf (s : Str) :
    colorEndIndex s = firstIdxOf isDelimiter s :=
  jsMinIndex_firstIdxOf (fun x => x = ',') (fun x => x = ' ') s

/-- C1: `parseColorInput` splits every line at the first occurrence of a
comma or a space, whichever comes first; everything from the split point on
becomes the label verbatim, the part before it becomes the color token
(subject only to the bare-6-hex-digit auto-hash normalization), and a line
with neither delimiter is wholly the color, with no label. -/
theorem parseColorInput_splits_at_first_delimiter (input : Str) :
    (firstIdxOf isDelimiter input = none → parseColorInput input = ⟨input, none⟩) ∧
    (∀ i, firstIdxOf isDelimiter input = some i →
      (parseColorInput input).label = some (input.drop i) ∧
      (parseColorInput input).color = addHashIfBareHex (input.take i)) := by
  constructor
  · intro h
    unfold parseColorInput
    rw [colorEndIndex_eq_firstIdxOf, h]
  · intro i h
    have hlt : i < input.length := firstIdxOf_some_lt_length h
    have hne : (input.drop i).isEmpty = false := by
      rw [List.isEmpty_eq_false, ne_eq, List.drop_eq_nil_iff, not_le]
      omega
    unfold parseColorInput
    rw [colorEndIndex_eq_firstIdxOf, h]
    simp [hne]

theorem parseColorInput_splits_at_first_delimiter_witness :
    (parseColorInput ("#FF0000, Red Button".toList)).label =
      some (("#FF0000, Red Button".toList).drop 7) ∧
    (parseColorInput ("#FF0000, Red Button".toList)).color =
      addHashIfBareHex (("#FF0000, Red Button".toList).take 7) :=
  (parseColorInput_splits_at_first_delimiter ("#FF0000, Red Button".toList)).2 7 (by decide)

/-- C2: formatting the entry parsed from a line reproduces the line exactly
whenever the line does not trigger the bare-6-hex-digit auto-hash
normalization (that is, whenever its color token before the first delimiter
is not exactly six hex digits). -/
theorem formatColorValue_parseColorInput_roundtrip (input : Str)
    (h : Option.all (fun i => !isBareHex6 (input.take i))
          (firstIdxOf isDelimiter input) = true) :
    formatColorValue (parseColorInput input) = input := by
  cases e : firstIdxOf isDelimiter input with
  | none =>
    rw [(parseColorInput_splits_at_first_delimiter input).1 e]
    rfl
  | some i =>
    rw [e] at h
    simp only [Option.all_some, Bool.not_eq_true'] at h
    have hlt : i < input.length := firstIdxOf_some_lt_length e
    have hne : (input.drop i).isEmpty = false := by
      rw [List.isEmpty_eq_false, ne_eq, List.drop_eq_nil_iff, not_le]
      omega
    unfold parseColorInput
    rw [colorEndIndex_eq_firstIdxOf, e]
    unfold formatColorValue addHashIfBareHex
    simp [hne, h, List.take_append_drop]

theorem formatColorValue_parseColorInput_roundtrip_witness :
    formatColorValue (parseColorInput ("red, button".toList)) = "red, button".toList :=
  formatColorValue_parseColorInput_roundtrip ("red, button".toList) (by decide)

/-- An RGB triple with integer channels 0-255.  Embeds the `RGB` interface
of `src/src/App.tsx` lines 22-26. -/
structure RGB where
  r : ℕ
  g : ℕ
  b : ℕ
deriving DecidableEq, Repr

/-- Numeric value of one hex digit character (both cases accepted).
Modelled from the spec: part of the color-parsing capability (chroma-js)
the source delegates to, which is not in the repository. -/
def hexVal (c : Char) : Option ℕ :=
  if 48 ≤ c.toNat ∧ c.toNat ≤ 57 then some (c.toNat - 48)
  else if 97 ≤ c.toNat ∧ c.toNat ≤ 102 then some (c.toNat - 87)
  else if 65 ≤ c.toNat ∧ c.toNat ≤ 70 then some (c.toNat - 55)
  else none

/-- Modelled from the spec: the color-string parser of the underlying
color-parsing capability (chroma-js, not in the repository), restricted to
the hex forms the spec names — six hex digits with or without a leading
hash, or the three-digit shorthand.  Returns `none` where the library
would throw on unparsable input. -/
def parseColor (s : Str) : Option RGB :=
  let t := match s with
    | '#' :: rest => rest
    | _ => s
  match t with
  | [c1, c2, c3, c4, c5, c6] => do
    let a ← hexVal c1; let b ← hexVal c2; let c ← hexVal c3
    let d ← hexVal c4; let e ← hexVal c5; let f ← hexVal c6
    pure ⟨16 * a + b, 16 * c + d, 16 * e + f⟩
  | [c1, c2, c3] => do
    let a ← hexVal c1; let b ← hexVal c2; let c ← hexVal c3
    pure ⟨16 * a + a, 16 * b + b, 16 * c + c⟩
  | _ => none

/-- Lower-case hex digit for a value 0-15, as the color library prints. -/
def hexDigitChar (n : ℕ) : Char :=
  if n < 10 then Char.ofNat (48 + n) else Char.ofNat (87 + n)

/-- Two-digit lower-case hex rendering of one 0-255 channel. -/
def byteToHex (n : ℕ) : Str :=
  [hexDigitChar (n / 16), hexDigitChar (n % 16)]

/-- Modelled from the spec: the canonical 6-digit hex output of the color
library (`.hex()` of chroma-js, not in the repository). -/
def rgbToHexString (c : RGB) : Str :=
  '#' :: (byteToHex c.r ++ byteToHex c.g ++ byteToHex c.b)

/-- An exact rational, kept as an integer numerator/denominator pair so
that proofs can evaluate the color arithmetic; every construction below
keeps the denominator positive.  This models the ideal real arithmetic of
the JavaScript number computations in the conversion formulas. -/
structure Frac where
  num : ℤ
  den : ℤ
deriving DecidableEq, Repr

/-- The integer `n` as a fraction. -/
def Frac.ofInt (n : ℤ) : Frac := ⟨n, 1⟩

/-- The natural number `n` as a fraction. -/
def Frac.ofNat (n : ℕ) : Frac := ⟨n, 1⟩

/-- Build a fraction, moving a sign in the denominator to the numerator. -/
def Frac.mk' (n d : ℤ) : Frac := if d < 0 then ⟨-n, -d⟩ else ⟨n, d⟩

/-- Exact addition. -/
def Frac.add (a b : Frac) : Frac := ⟨a.num * b.den + b.num * a.den, a.den * b.den⟩

/-- Exact subtraction. -/
def Frac.sub (a b : Frac) : Frac := ⟨a.num * b.den - b.num * a.den, a.den * b.den⟩

/-- Exact multiplication. -/
def Frac.mul (a b : Frac) : Frac := ⟨a.num * b.num, a.den * b.den⟩

/-- Exact division. -/
def Frac.div (a b : Frac) : Frac := Frac.mk' (a.num * b.den) (a.den * b.num)

/-- Comparison `a <= b` (valid for positive denominators). -/
def Frac.ble (a b : Frac) : Bool := a.num * b.den ≤ b.num * a.den

/-- Comparison `a < b` (valid for positive denominators). -/
def Frac.blt (a b : Frac) : Bool := a.num * b.den < b.num * a.den

/-- Equality test (valid for positive denominators), the exact counterpart
of the `===` comparisons in the conversion code. -/
def Frac.beq (a b : Frac) : Bool := a.num * b.den = b.num * a.den

/-- Floor of a fraction (valid for positive denominators). -/
def Frac.floor (a : Frac) : ℤ := a.num.fdiv a.den

/-- JavaScript `Math.round`: floor of the value plus one half. -/
def jsRound (a : Frac) : ℤ := (a.add ⟨1, 2⟩).floor

/-- Clamp a channel value into [0, 255], as the color library's
`clip_rgb` does before hex printing. -/
def clip255 (x : Frac) : Frac :=
  if x.blt (Frac.ofInt 0) then Frac.ofInt 0
  else if (Frac.ofInt 255).blt x then Frac.ofInt 255
  else x

/-- One stored channel byte: clamp, then round. -/
def toByte (x : Frac) : ℕ := (jsRound (clip255 x)).toNat

/-- A rounded integer HSL triple.  Embeds the `HSL` interface of
`src/src/App.tsx` lines 16-20. -/
structure HSL where
  h : ℤ
  s : ℤ
  l : ℤ
deriving DecidableEq, Repr

/-- Modelled from the spec: one channel of the standard HSL-to-RGB
conversion the color library implements (the `t1`/`t2`/`t3` formulation),
including its two sequential wrap corrections. -/
def hslChannel (t1 t2 t3 : Frac) : Frac :=
  let ta := if t3.blt (Frac.ofInt 0) then t3.add (Frac.ofInt 1) else t3
  let tb := if (Frac.ofInt 1).blt ta then ta.sub (Frac.ofInt 1) else ta
  if ((Frac.ofInt 6).mul tb).blt (Frac.ofInt 1) then
    t1.add (((t2.sub t1).mul (Frac.ofInt 6)).mul tb)
  else if ((Frac.ofInt 2).mul tb).blt (Frac.ofInt 1) then t2
  else if ((Frac.ofInt 3).mul tb).blt (Frac.ofInt 2) then
    t1.add (((t2.sub t1).mul ((Frac.div (Frac.ofInt 2) (Frac.ofInt 3)).sub tb)).mul (Frac.ofInt 6))
  else t1

/-- Modelled from the spec: HSL (hue in degrees, saturation and lightness
as 0-1 fractions) to RGB channels in 0-255, the standard conversion of the
color library; an achromatic input short-circuits to the gray of the given
lightness. -/
def hsl2rgb (h s l : Frac) : Frac × Frac × Frac :=
  if s.beq (Frac.ofInt 0) then
    let v := l.mul (Frac.ofInt 255)
    (v, v, v)
  else
    let t2 := if l.blt (Frac.div (Frac.ofInt 1) (Frac.ofInt 2)) then l.mul ((Frac.ofInt 1).add s)
              else (l.add s).sub (l.mul s)
    let t1 := ((Frac.ofInt 2).mul l).sub t2
    let hn := h.div (Frac.ofInt 360)
    let third := Frac.div (Frac.ofInt 1) (Frac.ofInt 3)
    ((hslChannel t1 t2 (hn.add third)).mul (Frac.ofInt 255),
     (hslChannel t1 t2 hn).mul (Frac.ofInt 255),
     (hslChannel t1 t2 (hn.sub third)).mul (Frac.ofInt 255))

/-- Embeds `hslToHex` of `src/src/App.tsx` lines 58-60: saturation and
lightness are divided by 100 and the resulting color is printed as a
6-digit hex string (channels clamped and rounded at that point). -/
def hslToHex (c : HSL) : Str :=
  let rgb := hsl2rgb (Frac.ofInt c.h) (Frac.div (Frac.ofInt c.s) (Frac.ofInt 100))
    (Frac.div (Frac.ofInt c.l) (Frac.ofInt 100))
  rgbToHexString ⟨toByte rgb.1, toByte rgb.2.1, toByte rgb.2.2⟩

/-- Smaller of two fractions, as `Math.min` computes it. -/
def fmin (a b : Frac) : Frac := if a.ble b then a else b

/-- Larger of two fractions, as `Math.max` computes it. -/
def fmax (a b : Frac) : Frac := if a.ble b then b else a

/-- Modelled from the spec: RGB channels 0-255 to HSL, the standard
conversion of the color library; the hue is `none` (JavaScript `NaN`) for
achromatic colors, the saturation denominator switches at lightness 1/2,
and a negative hue is wrapped up by 360 degrees. -/
def rgb2hsl (c : RGB) : Option Frac × Frac × Frac :=
  let r := Frac.div (Frac.ofNat c.r) (Frac.ofInt 255)
  let g := Frac.div (Frac.ofNat c.g) (Frac.ofInt 255)
  let b := Frac.div (Frac.ofNat c.b) (Frac.ofInt 255)
  let minRgb := fmin r (fmin g b)
  let maxRgb := fmax r (fmax g b)
  let l := (maxRgb.add minRgb).div (Frac.ofInt 2)
  if maxRgb.beq minRgb then (none, Frac.ofInt 0, l)
  else
    let d := maxRgb.sub minRgb
    let s := if l.blt (Frac.div (Frac.ofInt 1) (Frac.ofInt 2)) then d.div (maxRgb.add minRgb)
             else d.div ((Frac.ofInt 2).sub (maxRgb.add minRgb))
    let h0 := if r.beq maxRgb then (g.sub b).div d
              else if g.beq maxRgb then (Frac.ofInt 2).add ((b.sub r).div d)
              else (Frac.ofInt 4).add ((r.sub g).div d)
    let h1 := h0.mul (Frac.ofInt 60)
    let h2 := if h1.blt (Frac.ofInt 0) then h1.add (Frac.ofInt 360) else h1
    (some h2, s, l)

/-- Embeds `hexToHsl` of `src/src/App.tsx` lines 49-56: parse the color,
convert to HSL, then round hue, saturation times 100 and lightness times
100 to integers; an undefined hue (`NaN`, here `none`) is defaulted to 0 by
the source's `h || 0`.  Returns `none` where the underlying parse would
throw. -/
def hexToHsl (s : Str) : Option HSL :=
  match parseColor s with
  | none => none
  | some c =>
    let hsl := rgb2hsl c
    some ⟨jsRound (hsl.1.getD (Frac.ofInt 0)), jsRound (hsl.2.1.mul (Frac.ofInt 100)),
      jsRound (hsl.2.2.mul (Frac.ofInt 100))⟩

lemma hslToHex_achromatic (h l : ℤ) : hslToHex ⟨h, 0, l⟩ = hslToHex ⟨0, 0, l⟩ := by
  have hcond : Frac.beq (Frac.div (Frac.ofInt 0) (Frac.ofInt 100)) (Frac.ofInt 0) = true := by
    decide
  unfold hslToHex hsl2rgb
  simp only [hcond, if_true]

set_option maxRecDepth 8000 in
set_option maxHeartbeats 1000000 in
lemma hexToHsl_hslToHex_gray (n : ℕ) (hn : n < 101) :
    hexToHsl (hslToHex ⟨0, 0, (n : ℤ)⟩) = some ⟨0, 0, (n : ℤ)⟩ := by
  revert n hn
  decide

/-- C4 counterexample: the exact HSL round trip fails on the code.  The
achromatic triple (120, 0, 50) comes back as (0, 0, 50) — the hue
collapses to the 0 default — and the low-saturation chromatic triple
(1, 1, 50) comes back as (0, 1, 50), because the 8-bit channel
quantization of the hex form erases the one-degree hue. -/
theorem hexToHsl_hslToHex_roundtrip_fails :
    hexToHsl (hslToHex ⟨120, 0, 50⟩) ≠ some ⟨120, 0, 50⟩ ∧
    hexToHsl (hslToHex ⟨120, 0, 50⟩) = some ⟨0, 0, 50⟩ ∧
    hexToHsl (hslToHex ⟨1, 1, 50⟩) ≠ some ⟨1, 1, 50⟩ ∧
    hexToHsl (hslToHex ⟨1, 1, 50⟩) = some ⟨0, 1, 50⟩ := by
  refine ⟨?_, by decide, ?_, by decide⟩ <;> decide

/-- C4 amended: for every achromatic integer triple (saturation 0, hue in
[0, 360], lightness in [0, 100]) the round trip reproduces saturation and
lightness exactly and defaults the undefined hue to 0 rather than
propagating an error: `hexToHsl (hslToHex (h, 0, l)) = (0, 0, l)`.  The
full equality `toHsl (fromHsl x) = x` does not hold for all in-range
triples (see the counterexample). -/
theorem hexToHsl_hslToHex_achromatic (h l : ℤ) (hh0 : 0 ≤ h) (hh : h ≤ 360)
    (hl0 : 0 ≤ l) (hl : l ≤ 100) :
    hexToHsl (hslToHex ⟨h, 0, l⟩) = some ⟨0, 0, l⟩ := by
  rw [hslToHex_achromatic]
  have hn : l = ((l.toNat : ℕ) : ℤ) := (Int.toNat_of_nonneg hl0).symm
  rw [hn]
  exact hexToHsl_hslToHex_gray l.toNat (by omega)

theorem hexToHsl_hslToHex_achromatic_witness :
    ((0 : ℤ) ≤ 120 ∧ (120 : ℤ) ≤ 360 ∧ (0 : ℤ) ≤ 50 ∧ (50 : ℤ) ≤ 100) ∧
      hexToHsl (hslToHex ⟨120, 0, 50⟩) = some ⟨0, 0, 50⟩ :=
  ⟨by decide,
    hexToHsl_hslToHex_achromatic 120 50 (by decide) (by decide) (by decide) (by decide)⟩

/-- WCAG linearization of one sRGB channel.  Modelled from the spec: the
channel step of the relative-luminance formula the spec states (divide by
255, then below the 0.03928 threshold divide by 12.92, otherwise raise
`(c + 0.055) / 1.055` to the power 2.4), as the color library implements
it. -/
noncomputable def linearizeChannel (v : ℕ) : ℝ :=
  if (v : ℝ) / 255 ≤ 0.03928 then ((v : ℝ) / 255) / 12.92
  else (((v : ℝ) / 255 + 0.055) / 1.055) ^ (2.4 : ℝ)

/-- Modelled from the spec: WCAG relative luminance, the weighted sum of
the linearized channels. -/
noncomputable def relativeLuminance (c : RGB) : ℝ :=
  0.2126 * linearizeChannel c.r + 0.7152 * linearizeChannel c.g +
    0.0722 * linearizeChannel c.b

/-- Modelled from the spec: the color library's contrast of two parsed
colors — the lighter luminance plus 0.05 over the darker plus 0.05. -/
noncomputable def contrastOf (a b : RGB) : ℝ :=
  if relativeLuminance a > relativeLuminance b then
    (relativeLuminance a + 0.05) / (relativeLuminance b + 0.05)
  else (relativeLuminance b + 0.05) / (relativeLuminance a + 0.05)

/-- Embeds `getRatio` of `src/src/App.tsx` lines 409-415: delegate to the
library's contrast computation and return the sentinel 0 when that throws
on an unparsable color. -/
noncomputable def getRatio (color1 color2 : Str) : ℝ :=
  match parseColor color1, parseColor color2 with
  | some a, some b => contrastOf a b
  | _, _ => 0

/-- Embeds `isValidColor` of `src/src/App.tsx` lines 400-407: a color is
valid exactly when the library parse does not throw. -/
def isValidColor (color : Str) : Bool :=
  (parseColor color).isSome

/-- The three classifications a grid cell can show; `FAIL` is the red
cross of the source. -/
inductive ContrastLabel where
  | AAA
  | AA
  | FAIL
deriving DecidableEq, Repr

/-- Embeds `getContrastLabel` of `src/src/App.tsx` lines 32-36. -/
noncomputable def getContrastLabel (ratio : ℝ) : ContrastLabel :=
  if ratio ≥ 7 then .AAA else if ratio ≥ 4.5 then .AA else .FAIL

/-- Embeds the cell computation of `src/src/App.tsx` lines 649-654: the
ratio is computed only when both colors are valid, and is the sentinel 0
otherwise. -/
noncomputable def cellRatio (fg bg : Str) : ℝ :=
  if isValidColor fg && isValidColor bg then getRatio fg bg else 0

lemma hexVal_le_15 {c : Char} {n : ℕ} (h : hexVal c = some n) : n ≤ 15 := by
  unfold hexVal at h
  split_ifs at h with h1 h2 h3 <;> simp at h <;> omega

lemma parseColor_channels_le {s : Str} {c : RGB} (h : parseColor s = some c) :
    c.r ≤ 255 ∧ c.g ≤ 255 ∧ c.b ≤ 255 := by
  unfold parseColor at h
  split at h
  all_goals dsimp only at h
  all_goals split at h <;> try exact Option.noConfusion h
  all_goals simp only [bind, Option.bind_eq_some, pure, Option.some.injEq] at h
  all_goals
    first
      | (obtain ⟨a, ha, b, hb, c1, hc1, d, hd, e, he, f, hf, rfl⟩ := h
         have h1 := hexVal_le_15 ha
         have h2 := hexVal_le_15 hb
         have h3 := hexVal_le_15 hc1
         have h4 := hexVal_le_15 hd
         have h5 := hexVal_le_15 he
         have h6 := hexVal_le_15 hf
         refine ⟨?_, ?_, ?_⟩ <;> dsimp only <;> omega)
      | (obtain ⟨a, ha, b, hb, c1, hc1, rfl⟩ := h
         have h1 := hexVal_le_15 ha
         have h2 := hexVal_le_15 hb
         have h3 := hexVal_le_15 hc1
         refine ⟨?_, ?_, ?_⟩ <;> dsimp only <;> omega)

lemma linearizeChannel_nonneg (v : ℕ) : 0 ≤ linearizeChannel v := by
  unfold linearizeChannel
  split_ifs with h
  · positivity
  · exact Real.rpow_nonneg (by positivity) _

lemma linearizeChannel_le_one {v : ℕ} (hv : v ≤ 255) : linearizeChannel v ≤ 1 := by
  have hc : (v : ℝ) / 255 ≤ 1 := by
    rw [div_le_one (by norm_num)]
    exact_mod_cast Nat.cast_le.mpr hv
  unfold linearizeChannel
  split_ifs with h
  · rw [div_le_one (by norm_num)]
    linarith
  · apply Real.rpow_le_one (by positivity) ?_ (by norm_num)
    rw [div_le_one (by norm_num)]
    linarith

lemma relativeLuminance_nonneg (c : RGB) : 0 ≤ relativeLuminance c := by
  have h1 := linearizeChannel_nonneg c.r
  have h2 := linearizeChannel_nonneg c.g
  have h3 := linearizeChannel_nonneg c.b
  unfold relativeLuminance
  linarith

lemma relativeLuminance_le_one {c : RGB} (hr : c.r ≤ 255) (hg : c.g ≤ 255)
    (hb : c.b ≤ 255) : relativeLuminance c ≤ 1 := by
  have h1 := linearizeChannel_le_one hr
  have h2 := linearizeChannel_le_one hg
  have h3 := linearizeChannel_le_one hb
  unfold relativeLuminance
  linarith

lemma contrastOf_symm (a b : RGB) : contrastOf a b = contrastOf b a := by
  unfold contrastOf
  rcases lt_trichotomy (relativeLuminance a) (relativeLuminance b) with h | h | h
  · rw [if_neg (by simp only [gt_iff_lt, not_lt]; linarith), if_pos (by exact h)]
  · rw [h]
  · rw [if_pos (by exact h), if_neg (by simp only [gt_iff_lt, not_lt]; linarith)]

lemma one_le_contrastOf (a b : RGB) : 1 ≤ contrastOf a b := by
  have h1 := relativeLuminance_nonneg a
  have h2 := relativeLuminance_nonneg b
  unfold contrastOf
  split_ifs with h
  · rw [le_div_iff (by linarith)]
    linarith
  · simp only [gt_iff_lt, not_lt] at h
    rw [le_div_iff (by linarith)]
    linarith

lemma contrastOf_le_21 {a b : RGB} (har : a.r ≤ 255) (hag : a.g ≤ 255) (hab : a.b ≤ 255)
    (hbr : b.r ≤ 255) (hbg : b.g ≤ 255) (hbb : b.b ≤ 255) :
    contrastOf a b ≤ 21 := by
  have h1 := relativeLuminance_nonneg a
  have h2 := relativeLuminance_nonneg b
  have h3 := relativeLuminance_le_one har hag hab
  have h4 := relativeLuminance_le_one hbr hbg hbb
  unfold contrastOf
  split_ifs with h
  · rw [div_le_iff (by linarith)]
    linarith
  · rw [div_le_iff (by linarith)]
    linarith

lemma contrastOf_self (a : RGB) : contrastOf a a = 1 := by
  have h1 := relativeLuminance_nonneg a
  unfold contrastOf
  rw [if_neg (by simp)]
  rw [div_self (by linarith)]

lemma linearizeChannel_255 : linearizeChannel 255 = 1 := by
  unfold linearizeChannel
  rw [if_neg (by norm_num)]
  norm_num

lemma linearizeChannel_0 : linearizeChannel 0 = 0 := by
  unfold linearizeChannel
  rw [if_pos (by norm_num)]
  norm_num

/-- C5: for every pair of valid colors the contrast ratio is symmetric and
lies in [1, 21]; white against black gives exactly 21, and every valid
color against itself gives exactly 1. -/
theorem getRatio_symm_range_endpoints :
    (∀ s1 s2, isValidColor s1 = true → isValidColor s2 = true →
      getRatio s1 s2 = getRatio s2 s1 ∧ 1 ≤ getRatio s1 s2 ∧ getRatio s1 s2 ≤ 21) ∧
    getRatio ("#FFFFFF".toList) ("#000000".toList) = 21 ∧
    (∀ s, isValidColor s = true → getRatio s s = 1) := by
  refine ⟨?_, ?_, ?_⟩
  · intro s1 s2 h1 h2
    rw [isValidColor, Option.isSome_iff_exists] at h1 h2
    obtain ⟨a, ha⟩ := h1
    obtain ⟨b, hb⟩ := h2
    obtain ⟨har, hag, hab⟩ := parseColor_channels_le ha
    obtain ⟨hbr, hbg, hbb⟩ := parseColor_channels_le hb
    simp only [getRatio, ha, hb]
    exact ⟨contrastOf_symm a b, one_le_contrastOf a b,
      contrastOf_le_21 har hag hab hbr hbg hbb⟩
  · have hw : parseColor ("#FFFFFF".toList) = some ⟨255, 255, 255⟩ := by decide
    have hb : parseColor ("#000000".toList) = some ⟨0, 0, 0⟩ := by decide
    simp only [getRatio, hw, hb]
    have lw : relativeLuminance ⟨255, 255, 255⟩ = 1 := by
      unfold relativeLuminance
      simp only [linearizeChannel_255]
      norm_num
    have lb : relativeLuminance ⟨0, 0, 0⟩ = 0 := by
      unfold relativeLuminance
      simp only [linearizeChannel_0]
      norm_num
    unfold contrastOf
    rw [lw, lb, if_pos (by norm_num)]
    norm_num
  · intro s h
    rw [isValidColor, Option.isSome_iff_exists] at h
    obtain ⟨a, ha⟩ := h
    simp only [getRatio, ha]
    exact contrastOf_self a

theorem getRatio_symm_range_endpoints_witness :
    (isValidColor ("#FF0000".toList) = true ∧ isValidColor ("#0000FF".toList) = true) ∧
      (getRatio ("#FF0000".toList) ("#0000FF".toList) =
          getRatio ("#0000FF".toList) ("#FF0000".toList) ∧
        1 ≤ getRatio ("#FF0000".toList) ("#0000FF".toList) ∧
        getRatio ("#FF0000".toList) ("#0000FF".toList) ≤ 21) :=
  ⟨⟨by decide, by decide⟩,
    getRatio_symm_range_endpoints.1 ("#FF0000".toList) ("#0000FF".toList)
      (by decide) (by decide)⟩

/-- C6: whenever at least one of the two colors of a grid cell is invalid,
the cell ratio is the sentinel 0 (both at the guard in the cell computation
and inside `getRatio` itself, which never raises), and the cell is
classified `FAIL`. -/
theorem cellRatio_invalid_sentinel (fg bg : Str)
    (h : isValidColor fg = false ∨ isValidColor bg = false) :
    cellRatio fg bg = 0 ∧ getRatio fg bg = 0 ∧
      getContrastLabel (cellRatio fg bg) = .FAIL := by
  have hcell : cellRatio fg bg = 0 := by
    unfold cellRatio
    rcases h with h | h <;> simp [h]
  have hratio : getRatio fg bg = 0 := by
    rcases h with h | h
    · have hn : parseColor fg = none := by
        rcases e : parseColor fg with _ | v
        · rfl
        · rw [isValidColor, e] at h
          simp at h
      simp [getRatio, hn]
    · have hn : parseColor bg = none := by
        rcases e : parseColor bg with _ | v
        · rfl
        · rw [isValidColor, e] at h
          simp at h
      unfold getRatio
      rw [hn]
      rcases parseColor fg with _ | v <;> rfl
  refine ⟨hcell, hratio, ?_⟩
  rw [hcell]
  unfold getContrastLabel
  rw [if_neg (by norm_num), if_neg (by norm_num)]

theorem cellRatio_invalid_sentinel_witness :
    (isValidColor ("not-a-color".toList) = false ∨
        isValidColor ("#FFFFFF".toList) = false) ∧
      (cellRatio ("not-a-color".toList) ("#FFFFFF".toList) = 0 ∧
        getRatio ("not-a-color".toList) ("#FFFFFF".toList) = 0 ∧
        getContrastLabel (cellRatio ("not-a-color".toList) ("#FFFFFF".toList)) = .FAIL) :=
  ⟨Or.inl (by decide),
    cellRatio_invalid_sentinel ("not-a-color".toList) ("#FFFFFF".toList)
      (Or.inl (by decide))⟩

/-- C7: the classification is `AAA` from 7.0 up, `AA` from 4.5 up to below
7.0, and `FAIL` below 4.5, with both lower bounds inclusive; in particular
7.0 is `AAA`, 6.99 and 4.5 are `AA`, and 4.49 is `FAIL`. -/
theorem getContrastLabel_thresholds :
    (∀ r : ℝ, 7 ≤ r → getContrastLabel r = .AAA) ∧
    (∀ r : ℝ, 4.5 ≤ r → r < 7 → getContrastLabel r = .AA) ∧
    (∀ r : ℝ, r < 4.5 → getContrastLabel r = .FAIL) ∧
    getContrastLabel 7 = .AAA ∧ getContrastLabel 6.99 = .AA ∧
    getContrastLabel 4.5 = .AA ∧ getContrastLabel 4.49 = .FAIL := by
  have hAAA : ∀ r : ℝ, 7 ≤ r → getContrastLabel r = .AAA := by
    intro r h
    unfold getContrastLabel
    rw [if_pos h]
  have hAA : ∀ r : ℝ, 4.5 ≤ r → r < 7 → getContrastLabel r = .AA := by
    intro r h1 h2
    unfold getContrastLabel
    rw [if_neg (by simp only [ge_iff_le, not_le]; linarith), if_pos h1]
  have hFAIL : ∀ r : ℝ, r < 4.5 → getContrastLabel r = .FAIL := by
    intro r h
    unfold getContrastLabel
    rw [if_neg (by simp only [ge_iff_le, not_le]; linarith),
      if_neg (by simp only [ge_iff_le, not_le]; linarith)]
  exact ⟨hAAA, hAA, hFAIL, hAAA 7 (by norm_num), hAA 6.99 (by norm_num) (by norm_num),
    hAA 4.5 (by norm_num) (by norm_num), hFAIL 4.49 (by norm_num)⟩

theorem getContrastLabel_thresholds_witness :
    getContrastLabel 8 = .AAA :=
  getContrastLabel_thresholds.1 8 (by norm_num)

/-- Which axis a picker target refers to. -/
inductive PickerType where
  | foreground
  | background
deriving DecidableEq, Repr

/-- The `activeColorPicker` payload of `src/src/App.tsx` lines 283-286. -/
structure PickerTarget where
  type : PickerType
  index : ℕ
deriving DecidableEq, Repr

/-- One slot of a JavaScript array of entries: `none` models an undefined
hole, which an out-of-bounds element write can create. -/
abbrev JsCell := Option ColorEntry

/-- The component state the embedded handlers read and write
(`src/src/App.tsx` lines 249-289): the two axis lists, the open picker and
the two drag indices.  The storage writes the handlers also perform are
external and not modelled. -/
structure AppState where
  foregroundColors : List JsCell
  backgroundColors : List JsCell
  activeColorPicker : Option PickerTarget
  draggedIndex : Option ℕ
  draggedRowIndex : Option ℕ
deriving DecidableEq, Repr

/-- JavaScript array element assignment `l[i] = x`: replaces the element in
bounds; out of bounds it extends the array, filling skipped positions with
undefined holes. -/
def jsArraySet (l : List JsCell) (i : ℕ) (x : JsCell) : List JsCell :=
  if i < l.length then l.set i x
  else l ++ List.replicate (i - l.length) none ++ [x]

/-- The spread `{ ...newColors[index], color: newColor }` of
`src/src/App.tsx` lines 322-325: keeps the label of the existing entry and
replaces its color; spreading an undefined slot leaves only the color. -/
def spreadWithColor (old : JsCell) (newColor : Str) : ColorEntry :=
  ⟨newColor, old.bind ColorEntry.label⟩

/-- Embeds `handleColorChange` of `src/src/App.tsx` lines 317-343. -/
def handleColorChange (st : AppState) (newColor : Str) : AppState :=
  match st.activeColorPicker with
  | none => st
  | some p =>
    match p.type with
    | .foreground =>
      let entry := some (spreadWithColor (st.foregroundColors.getD p.index none) newColor)
      { st with foregroundColors := jsArraySet st.foregroundColors p.index entry }
    | .background =>
      let entry := some (spreadWithColor (st.backgroundColors.getD p.index none) newColor)
      { st with backgroundColors := jsArraySet st.backgroundColors p.index entry }

/-- Column or row drag, the `type` argument of the drag handlers. -/
inductive DragKind where
  | column
  | row
deriving DecidableEq, Repr

/-- JavaScript `splice(i, 0, x)` insertion: the index clamps to the array
length, so an over-long index appends at the end. -/
def jsSpliceInsert (l : List JsCell) (i : ℕ) (x : JsCell) : List JsCell :=
  l.take i ++ x :: l.drop i

/-- Embeds `handleDragOver` of `src/src/App.tsx` lines 430-449: a no-op
when nothing is dragged or the pointer is over the dragged index itself;
otherwise the dragged entry is read, spliced out of its old position,
spliced back in at the pointer index, and the dragged index is updated. -/
def handleDragOver (st : AppState) (index : ℕ) (k : DragKind) : AppState :=
  match k with
  | .column =>
    match st.draggedIndex with
    | none => st
    | some d =>
      if d = index then st
      else
        let draggedColor := st.foregroundColors.getD d none
        let newColors := jsSpliceInsert (st.foregroundColors.eraseIdx d) index draggedColor
        { st with foregroundColors := newColors, draggedIndex := some index }
  | .row =>
    match st.draggedRowIndex with
    | none => st
    | some d =>
      if d = index then st
      else
        let draggedColor := st.backgroundColors.getD d none
        let newColors := jsSpliceInsert (st.backgroundColors.eraseIdx d) index draggedColor
        { st with backgroundColors := newColors, draggedRowIndex := some index }

/-- The hardcoded default foreground (column) triple of `src/src/App.tsx`
lines 259-263. -/
def defaultForegroundColors : List JsCell :=
  [some ⟨"#FFFFFF".toList, some ("White".toList)⟩,
   some ⟨"#000000".toList, some ("Black".toList)⟩,
   some ⟨"#FF0000".toList, some ("Red".toList)⟩]

/-- The hardcoded default background (row) triple of `src/src/App.tsx`
lines 276-280. -/
def defaultBackgroundColors : List JsCell :=
  [some ⟨"#000000".toList, some ("Black".toList)⟩,
   some ⟨"#FFFFFF".toList, some ("White".toList)⟩,
   some ⟨"#0000FF".toList, some ("Blue".toList)⟩]

/-- A well-typed persisted document `{ fg, bg }` under the storage key. -/
structure PersistedState where
  fg : List JsCell
  bg : List JsCell

/-- Embeds the `foregroundColors` initializer of `src/src/App.tsx` lines
249-264.  `saved` is the stored string (`none` when the key is absent) and
`parseJson` is Modelled from the spec: it stands for `JSON.parse` plus the
`fg`/`bg` destructuring, platform facilities that are not repository code,
returning `none` exactly when parsing throws.  An empty stored string is
JavaScript-falsy and treated like an absent key, as in the source's
`if (savedColors)` guard. -/
def initForegroundColors (parseJson : Str → Option PersistedState)
    (saved : Option Str) : List JsCell :=
  match saved with
  | none => defaultForegroundColors
  | some s =>
    if s.isEmpty then defaultForegroundColors
    else
      match parseJson s with
      | some ps => ps.fg
      | none => defaultForegroundColors

/-- Embeds the `backgroundColors` initializer of `src/src/App.tsx` lines
266-281; see `initForegroundColors` for the modelling of `parseJson`. -/
def initBackgroundColors (parseJson : Str → Option PersistedState)
    (saved : Option Str) : List JsCell :=
  match saved with
  | none => defaultBackgroundColors
  | some s =>
    if s.isEmpty then defaultBackgroundColors
    else
      match parseJson s with
      | some ps => ps.bg
      | none => defaultBackgroundColors

/-- C9: when the persisted state is absent or its JSON fails to parse, both
initializers — each guarding independently — fall back to the fixed default
triples: white/black/red for the foreground columns and black/white/blue
for the background rows. -/
theorem init_defaults_on_absent_or_corrupt
    (parseJson : Str → Option PersistedState) (saved : Option Str)
    (h : saved = none ∨ ∃ s, saved = some s ∧ parseJson s = none) :
    initForegroundColors parseJson saved = defaultForegroundColors ∧
      initBackgroundColors parseJson saved = defaultBackgroundColors := by
  rcases h with rfl | ⟨s, rfl, hp⟩
  · exact ⟨rfl, rfl⟩
  · constructor
    · unfold initForegroundColors
      by_cases he : s.isEmpty = true <;> simp [he, hp]
    · unfold initBackgroundColors
      by_cases he : s.isEmpty = true <;> simp [he, hp]

theorem init_defaults_on_absent_or_corrupt_witness :
    initForegroundColors (fun _ => none) (some ("corrupt json".toList))
        = defaultForegroundColors ∧
      initBackgroundColors (fun _ => none) (some ("corrupt json".toList))
        = defaultBackgroundColors :=
  init_defaults_on_absent_or_corrupt (fun _ => none) (some ("corrupt json".toList))
    (Or.inr ⟨"corrupt json".toList, rfl, rfl⟩)

/-- A state whose picker holds a stale index one past the end of the single
remaining foreground entry — the shortened-axis scenario the spec
describes. -/
def staleIndexState : AppState :=
  { foregroundColors := [some ⟨"#FFFFFF".toList, some ("White".toList)⟩],
    backgroundColors := [some ⟨"#000000".toList, some ("Black".toList)⟩],
    activeColorPicker := some ⟨.foreground, 1⟩,
    draggedIndex := none,
    draggedRowIndex := none }

/-- C3 counterexample: with the picker holding an out-of-bounds index, a
color change is not a silent no-op — the JavaScript array write extends the
axis, appending a fresh label-less entry, so the foreground list does not
stay exactly as it was. -/
theorem handleColorChange_out_of_range_not_noop :
    (handleColorChange staleIndexState ("#123456".toList)).foregroundColors
        ≠ staleIndexState.foregroundColors ∧
      (handleColorChange staleIndexState ("#123456".toList)).foregroundColors
        = [some ⟨"#FFFFFF".toList, some ("White".toList)⟩,
           some ⟨"#123456".toList, none⟩] := by
  refine ⟨?_, by decide⟩
  decide

/-- C3 amended: with no picker open the handler is the identity; with the
picker on an in-bounds entry of one axis it replaces only that entry's
color, keeps its label, leaves every other entry of the axis and the whole
other axis unchanged; with an out-of-bounds picker index it does not crash
and leaves the other axis unchanged, but instead of a no-op it extends the
axis — undefined holes for skipped positions, then a label-less entry
carrying the new color at the picker index. -/
theorem handleColorChange_updates_only_target (st : AppState) (c : Str) :
    (st.activeColorPicker = none → handleColorChange st c = st) ∧
    (∀ i, st.activeColorPicker = some ⟨.foreground, i⟩ →
      (handleColorChange st c).backgroundColors = st.backgroundColors ∧
      (∀ e, st.foregroundColors[i]? = some (some e) →
        (handleColorChange st c).foregroundColors
            = st.foregroundColors.set i (some ⟨c, e.label⟩) ∧
          (handleColorChange st c).foregroundColors[i]? = some (some ⟨c, e.label⟩) ∧
          ∀ j, j ≠ i →
            (handleColorChange st c).foregroundColors[j]? = st.foregroundColors[j]?) ∧
      (st.foregroundColors.length ≤ i →
        (handleColorChange st c).foregroundColors
          = st.foregroundColors
              ++ List.replicate (i - st.foregroundColors.length) none
              ++ [some ⟨c, none⟩])) ∧
    (∀ i, st.activeColorPicker = some ⟨.background, i⟩ →
      (handleColorChange st c).foregroundColors = st.foregroundColors ∧
      (∀ e, st.backgroundColors[i]? = some (some e) →
        (handleColorChange st c).backgroundColors
            = st.backgroundColors.set i (some ⟨c, e.label⟩) ∧
          (handleColorChange st c).backgroundColors[i]? = some (some ⟨c, e.label⟩) ∧
          ∀ j, j ≠ i →
            (handleColorChange st c).backgroundColors[j]? = st.backgroundColors[j]?) ∧
      (st.backgroundColors.length ≤ i →
        (handleColorChange st c).backgroundColors
          = st.backgroundColors
              ++ List.replicate (i - st.backgroundColors.length) none
              ++ [some ⟨c, none⟩])) := by
  refine ⟨?_, ?_, ?_⟩
  · intro h
    unfold handleColorChange
    rw [h]
  · intro i hp
    unfold handleColorChange
    rw [hp]
    dsimp only
    refine ⟨rfl, ?_, ?_⟩
    · intro e he
      have hi : i < st.foregroundColors.length := by
        by_contra hcon
        rw [List.getElem?_eq_none (by omega)] at he
        exact Option.noConfusion he
      have hgd : st.foregroundColors.getD i none = some e := by
        rw [List.getD_eq_getElem?_getD, he]
        rfl
      rw [hgd]
      unfold spreadWithColor jsArraySet
      rw [if_pos hi]
      dsimp only [Option.bind]
      refine ⟨rfl, ?_, ?_⟩
      · rw [List.getElem?_set_self hi]
      · intro j hj
        rw [List.getElem?_set_ne (Ne.symm hj)]
    · intro hle
      have hgd : st.foregroundColors.getD i none = none := by
        rw [List.getD_eq_getElem?_getD, List.getElem?_eq_none hle]
        rfl
      rw [hgd]
      unfold spreadWithColor jsArraySet
      rw [if_neg (by omega)]
      rfl
  · intro i hp
    unfold handleColorChange
    rw [hp]
    dsimp only
    refine ⟨rfl, ?_, ?_⟩
    · intro e he
      have hi : i < st.backgroundColors.length := by
        by_contra hcon
        rw [List.getElem?_eq_none (by omega)] at he
        exact Option.noConfusion he
      have hgd : st.backgroundColors.getD i none = some e := by
        rw [List.getD_eq_getElem?_getD, he]
        rfl
      rw [hgd]
      unfold spreadWithColor jsArraySet
      rw [if_pos hi]
      dsimp only [Option.bind]
      refine ⟨rfl, ?_, ?_⟩
      · rw [List.getElem?_set_self hi]
      · intro j hj
        rw [List.getElem?_set_ne (Ne.symm hj)]
    · intro hle
      have hgd : st.backgroundColors.getD i none = none := by
        rw [List.getD_eq_getElem?_getD, List.getElem?_eq_none hle]
        rfl
      rw [hgd]
      unfold spreadWithColor jsArraySet
      rw [if_neg (by omega)]
      rfl

/-- A state whose picker is open on the (in-bounds) first foreground
entry. -/
def livePickerState : AppState :=
  { foregroundColors := [some ⟨"#FFFFFF".toList, some ("White".toList)⟩],
    backgroundColors := [some ⟨"#000000".toList, some ("Black".toList)⟩],
    activeColorPicker := some ⟨.foreground, 0⟩,
    draggedIndex := none,
    draggedRowIndex := none }

theorem handleColorChange_updates_only_target_witness :
    (handleColorChange livePickerState ("#123456".toList)).foregroundColors
        = livePickerState.foregroundColors.set 0
            (some ⟨"#123456".toList, some ("White".toList)⟩) ∧
      (handleColorChange livePickerState ("#123456".toList)).backgroundColors
        = livePickerState.backgroundColors :=
  have h := (handleColorChange_updates_only_target livePickerState ("#123456".toList)).2.1 0 rfl
  ⟨(h.2.1 ⟨"#FFFFFF".toList, some ("White".toList)⟩ rfl).1, h.1⟩

lemma jsSpliceInsert_eq_insertIdx (i : ℕ) :
    ∀ (l : List JsCell) (x : JsCell), i ≤ l.length →
      jsSpliceInsert l i x = List.insertIdx i x l := by
  induction i with
  | zero =>
    intro l x _
    simp [jsSpliceInsert]
  | succ n ih =>
    intro l x h
    cases l with
    | nil => simp at h
    | cons a t =>
      simp only [jsSpliceInsert, List.take_succ_cons, List.drop_succ_cons,
        List.insertIdx_succ_cons, List.cons_append]
      rw [← ih t x (by simpa using h)]
      rfl

lemma handleDragOver_column_move (st : AppState) (d i : ℕ)
    (h : st.draggedIndex = some d) (hne : d ≠ i) :
    handleDragOver st i .column =
      { st with
          foregroundColors :=
            jsSpliceInsert (st.foregroundColors.eraseIdx d) i
              (st.foregroundColors.getD d none),
          draggedIndex := some i } := by
  unfold handleDragOver
  rw [h]
  dsimp only
  rw [if_neg hne]

lemma handleDragOver_row_move (st : AppState) (d i : ℕ)
    (h : st.draggedRowIndex = some d) (hne : d ≠ i) :
    handleDragOver st i .row =
      { st with
          backgroundColors :=
            jsSpliceInsert (st.backgroundColors.eraseIdx d) i
              (st.backgroundColors.getD d none),
          draggedRowIndex := some i } := by
  unfold handleDragOver
  rw [h]
  dsimp only
  rw [if_neg hne]

lemma spliceInsert_eraseIdx_perm (l : List JsCell) (d i : ℕ)
    (hd : d < l.length) (hi : i < l.length) :
    (jsSpliceInsert (l.eraseIdx d) i (l.getD d none)).Perm l := by
  have hx : l.getD d none = l[d] := by
    rw [List.getD_eq_getElem?_getD, List.getElem?_eq_getElem hd]
    rfl
  have h1 : (jsSpliceInsert (l.eraseIdx d) i (l.getD d none)).Perm
      (l.getD d none :: l.eraseIdx d) := by
    unfold jsSpliceInsert
    have hm := @List.perm_middle _ (l.getD d none)
      ((l.eraseIdx d).take i) ((l.eraseIdx d).drop i)
    rwa [List.take_append_drop] at hm
  have h2 : (l.getD d none :: l.eraseIdx d).Perm l := by
    rw [hx, List.eraseIdx_eq_take_drop_succ]
    have hm := (@List.perm_middle _ l[d] (l.take d) (l.drop (d + 1))).symm
    rwa [List.getElem_cons_drop, List.take_append_drop] at hm
  exact h1.trans h2

/-- C8: the drag-over handler is a no-op when the pointer index equals the
dragged index, and otherwise (for in-range indices) removes the dragged
entry and reinserts it at the pointer index — shifting the entries in
between by one position — updating the dragged index and leaving the other
axis untouched; reordering a 3-entry axis [A, B, C] from index 0 to index 2
yields [B, C, A]. -/
theorem handleDragOver_removes_and_reinserts (st : AppState) (d i : ℕ) :
    (st.draggedIndex = some d → handleDragOver st d .column = st) ∧
    (st.draggedRowIndex = some d → handleDragOver st d .row = st) ∧
    (st.draggedIndex = some d → d ≠ i → d < st.foregroundColors.length →
      i < st.foregroundColors.length →
      (handleDragOver st i .column).foregroundColors
          = List.insertIdx i (st.foregroundColors.getD d none)
              (st.foregroundColors.eraseIdx d) ∧
        (handleDragOver st i .column).draggedIndex = some i ∧
        (handleDragOver st i .column).backgroundColors = st.backgroundColors) ∧
    (st.draggedRowIndex = some d → d ≠ i → d < st.backgroundColors.length →
      i < st.backgroundColors.length →
      (handleDragOver st i .row).backgroundColors
          = List.insertIdx i (st.backgroundColors.getD d none)
              (st.backgroundColors.eraseIdx d) ∧
        (handleDragOver st i .row).draggedRowIndex = some i ∧
        (handleDragOver st i .row).foregroundColors = st.foregroundColors) ∧
    (∀ A B C : JsCell, ∀ bg pick dri,
      (handleDragOver ⟨[A, B, C], bg, pick, some 0, dri⟩ 2 .column).foregroundColors
        = [B, C, A]) := by
  refine ⟨?_, ?_, ?_, ?_, ?_⟩
  · intro h
    unfold handleDragOver
    rw [h]
    dsimp only
    rw [if_pos rfl]
  · intro h
    unfold handleDragOver
    rw [h]
    dsimp only
    rw [if_pos rfl]
  · intro h hne hd hi
    rw [handleDragOver_column_move st d i h hne]
    have hlen : i ≤ (st.foregroundColors.eraseIdx d).length := by
      rw [List.length_eraseIdx]
      simp only [hd, if_true]
      omega
    exact ⟨jsSpliceInsert_eq_insertIdx i _ _ hlen, rfl, rfl⟩
  · intro h hne hd hi
    rw [handleDragOver_row_move st d i h hne]
    have hlen : i ≤ (st.backgroundColors.eraseIdx d).length := by
      rw [List.length_eraseIdx]
      simp only [hd, if_true]
      omega
    exact ⟨jsSpliceInsert_eq_insertIdx i _ _ hlen, rfl, rfl⟩
  · intro A B C bg pick dri
    rfl

theorem handleDragOver_removes_and_reinserts_witness :
    (handleDragOver
          ⟨[some ⟨"#FFFFFF".toList, none⟩, some ⟨"#000000".toList, none⟩,
              some ⟨"#FF0000".toList, none⟩],
            [], none, some 0, none⟩ 2 .column).foregroundColors
      = [some ⟨"#000000".toList, none⟩, some ⟨"#FF0000".toList, none⟩,
          some ⟨"#FFFFFF".toList, none⟩] :=
  (handleDragOver_removes_and_reinserts
      ⟨[some ⟨"#FFFFFF".toList, none⟩, some ⟨"#000000".toList, none⟩,
          some ⟨"#FF0000".toList, none⟩],
        [], none, some 0, none⟩ 0 2).2.2.2.2
    (some ⟨"#FFFFFF".toList, none⟩) (some ⟨"#000000".toList, none⟩)
    (some ⟨"#FF0000".toList, none⟩) [] none none

/-- C10: one drag-over reorder step with distinct in-range indices permutes
the axis — no entry is duplicated, lost or modified, and the length is
preserved — and leaves the other axis's list unchanged. -/
theorem handleDragOver_preserves_multiset (st : AppState) (d i : ℕ) :
    (st.draggedIndex = some d → d < st.foregroundColors.length →
      i < st.foregroundColors.length → d ≠ i →
      (handleDragOver st i .column).foregroundColors.Perm st.foregroundColors ∧
        (handleDragOver st i .column).foregroundColors.length
          = st.foregroundColors.length ∧
        (handleDragOver st i .column).backgroundColors = st.backgroundColors) ∧
    (st.draggedRowIndex = some d → d < st.backgroundColors.length →
      i < st.backgroundColors.length → d ≠ i →
      (handleDragOver st i .row).backgroundColors.Perm st.backgroundColors ∧
        (handleDragOver st i .row).backgroundColors.length
          = st.backgroundColors.length ∧
        (handleDragOver st i .row).foregroundColors = st.foregroundColors) := by
  constructor
  · intro h hd hi hne
    rw [handleDragOver_column_move st d i h hne]
    have hperm := spliceInsert_eraseIdx_perm st.foregroundColors d i hd hi
    exact ⟨hperm, hperm.length_eq, rfl⟩
  · intro h hd hi hne
    rw [handleDragOver_row_move st d i h hne]
    have hperm := spliceInsert_eraseIdx_perm st.backgroundColors d i hd hi
    exact ⟨hperm, hperm.length_eq, rfl⟩

theorem handleDragOver_preserves_multiset_witness :
    ((handleDragOver
          ⟨[some ⟨"#FFFFFF".toList, none⟩, some ⟨"#000000".toList, none⟩,
              some ⟨"#FF0000".toList, none⟩],
            [some ⟨"#0000FF".toList, none⟩], none, some 0, none⟩ 2
          .column).foregroundColors.Perm
        [some ⟨"#FFFFFF".toList, none⟩, some ⟨"#000000".toList, none⟩,
          some ⟨"#FF0000".toList, none⟩]) ∧
      ((handleDragOver
            ⟨[some ⟨"#FFFFFF".toList, none⟩, some ⟨"#000000".toList, none⟩,
                some ⟨"#FF0000".toList, none⟩],
              [some ⟨"#0000FF".toList, none⟩], none, some 0, none⟩ 2
            .column).foregroundColors.length = 3) ∧
      (handleDragOver
            ⟨[some ⟨"#FFFFFF".toList, none⟩, some ⟨"#000000".toList, none⟩,
                some ⟨"#FF0000".toList, none⟩],
              [some ⟨"#0000FF".toList, none⟩], none, some 0, none⟩ 2
          .column).backgroundColors = [some ⟨"#0000FF".toList, none⟩] :=
  (handleDragOver_preserves_multiset
      ⟨[some ⟨"#FFFFFF".toList, none⟩, some ⟨"#000000".toList, none⟩,
          some ⟨"#FF0000".toList, none⟩],
        [some ⟨"#0000FF".toList, none⟩], none, some 0, none⟩ 0 2).1
    rfl (by decide) (by decide) (by decide)
